import Mathlib

/-!
Verification of the GAP fitting core in `bindings/rascal/models/gaptools.py`.

The numerical pipeline is shallowly embedded over `ℚ` with list-based vectors
and matrices.  External collaborators of the fitting core are modelled as
function parameters:

* `np.sqrt` (applied to atom counts) is a parameter `sqrt : ℚ → ℚ`;
* `np.linalg.lstsq` is a parameter `lstsq : Option ℚ → Mat → Vec → Vec`
  receiving the `rcond` cutoff, the matrix and the right-hand side, and
  returning the solution array (its first return value);
* the kernel evaluator of `rascal.models.Kernel` is modelled by abstract
  functions for its three call modes (self kernel, cross kernel, gradient
  kernel).

Supplying `None` where NumPy expects an array (the partially configured
force-fitting case) raises a `TypeError` in Python; the embedding returns
`Except.error` there.
-/

namespace Gaptools

/-- Dense 1-D float array. -/
abbrev Vec := List ℚ

/-- Dense 2-D float array, stored row-major (a list of rows). -/
abbrev Mat := List (List ℚ)

/-- Dot product of two vectors (`np.dot` on 1-D arrays). -/
def dot (u v : Vec) : ℚ := (List.zipWith (· * ·) u v).sum

/-- Matrix–vector product `A @ v`. -/
def matVec (A : Mat) (v : Vec) : Vec := A.map (fun row => dot row v)

/-- Matrix–matrix product `A @ B`. -/
def matMul (A B : Mat) : Mat :=
  A.map (fun row => B.transpose.map (fun col => dot row col))

/-- Elementwise matrix sum `A + B`. -/
def matAdd (A B : Mat) : Mat := List.zipWith (List.zipWith (· + ·)) A B

/-- Elementwise vector difference `u - v`. -/
def vecSub (u v : Vec) : Vec := List.zipWith (· - ·) u v

/-- Squared Euclidean norm of a vector. -/
def sqNorm (v : Vec) : ℚ := (v.map (fun x => x * x)).sum

/-- Squared residual of the candidate solution `w` for the system `A w = b`. -/
def sqResid (A : Mat) (b w : Vec) : ℚ := sqNorm (vecSub (matVec A w) b)

/-- Predicate: `w` is a least-squares solution of `A w = b`: its squared residual is
minimal among all candidate vectors. -/
def IsLeastSqSol (A : Mat) (b w : Vec) : Prop :=
  ∀ v : Vec, sqResid A b w ≤ sqResid A b v

/-- Predicate: `w` is the minimum-norm least-squares solution of `A w = b`, which is what
`np.linalg.lstsq` produces on a rank-deficient system. -/
def IsMinNormLeastSqSol (A : Mat) (b w : Vec) : Prop :=
  IsLeastSqSol A b w ∧ ∀ v : Vec, IsLeastSqSol A b v → sqNorm w ≤ sqNorm v

/-- An ASE `Atoms` object, reduced to what `gaptools.py` reads from it:
`get_atomic_numbers()` and `len()`. -/
structure Geom where
  atomicNumbers : List ℤ
  deriving DecidableEq, Repr

/-- Python `len(geom)`: the number of atoms. -/
def Geom.len (g : Geom) : ℕ := g.atomicNumbers.length

/-- Source `_get_energy_baseline(geom, atom_contributions)`: starting from `e0 = 0.`,
for each `(species, e0_value)` item of the baseline table add
`e0_value * np.sum(geom.get_atomic_numbers() == species)`.  The Python dict is
modelled as an association list with distinct keys. -/
def get_energy_baseline (geom : Geom) (atom_contributions : List (ℤ × ℚ)) : ℚ :=
  atom_contributions.foldl
    (fun e0 p => e0 + p.2 * (geom.atomicNumbers.count p.1 : ℚ)) 0

/-- The design-matrix/target assembly stage of `fit_gap_simple`
(source lines 213–228): baseline shift, per-structure energy regularization,
and, when forces are supplied, the normalized gradient block stacked below the
energy block.  Supplying `forces` without `kernel_gradients_sparse` or without
`force_regularizer` hits `kernel_gradients_sparse / force_regularizer` with a
`None` operand, a Python `TypeError`. -/
def fit_design (sqrt : ℚ → ℚ) (geoms : List Geom) (energies : Vec)
    (kernel_energies_sparse : Mat) (energy_regularizer_peratom : ℚ)
    (energy_atom_contributions : List (ℤ × ℚ)) (forces : Option Mat)
    (kernel_gradients_sparse : Option Mat) (force_regularizer : Option ℚ) :
    Except String (Mat × Vec) :=
  let e0_all := geoms.map (fun g => get_energy_baseline g energy_atom_contributions)
  let energies_shifted := List.zipWith (· - ·) energies e0_all
  let natoms_list := geoms.map Geom.len
  let energy_regularizer :=
    natoms_list.map (fun n : ℕ => energy_regularizer_peratom * sqrt (n : ℚ))
  let kernel_energies_norm :=
    List.zipWith (fun row r => row.map (fun x => x / r))
      kernel_energies_sparse energy_regularizer
  match forces with
  | some fs =>
      let gradients := fs.map (List.map (fun x => -1 * x))
      match kernel_gradients_sparse, force_regularizer with
      | some kg, some fr =>
          let kernel_gradients_norm := kg.map (List.map (fun x => x / fr))
          Except.ok (kernel_energies_norm ++ kernel_gradients_norm,
            List.zipWith (· / ·) energies_shifted energy_regularizer
              ++ gradients.flatten.map (fun x => x / fr))
      | _, _ => Except.error "TypeError: unsupported operand for /"
  | none =>
      Except.ok (kernel_energies_norm,
        List.zipWith (· / ·) energies_shifted energy_regularizer)

/-- Source `fit_gap_simple` (source lines 157–231): assemble the normalized design
matrix `K_NM` and targets `Y`, form `K = kernel_sparse + K_NM.T @ K_NM`, and
return the first output of `np.linalg.lstsq(K, K_NM.T @ Y, rcond=rcond)`. -/
def fit_gap_simple (sqrt : ℚ → ℚ) (lstsq : Option ℚ → Mat → Vec → Vec)
    (geoms : List Geom) (kernel_sparse : Mat) (energies : Vec)
    (kernel_energies_sparse : Mat) (energy_regularizer_peratom : ℚ)
    (energy_atom_contributions : List (ℤ × ℚ)) (forces : Option Mat)
    (kernel_gradients_sparse : Option Mat) (force_regularizer : Option ℚ)
    (rcond : Option ℚ) : Except String Vec :=
  match fit_design sqrt geoms energies kernel_energies_sparse
      energy_regularizer_peratom energy_atom_contributions forces
      kernel_gradients_sparse force_regularizer with
  | Except.error e => Except.error e
  | Except.ok (K_NM, Y) =>
      let K := matAdd kernel_sparse (matMul K_NM.transpose K_NM)
      Except.ok (lstsq rcond K (matVec K_NM.transpose Y))

/-- The normal-equations system `(K, K_NM.T @ Y)` that `fit_gap_simple` hands
to the least-squares solver. -/
def fit_normal_system (sqrt : ℚ → ℚ) (geoms : List Geom) (kernel_sparse : Mat)
    (energies : Vec) (kernel_energies_sparse : Mat)
    (energy_regularizer_peratom : ℚ)
    (energy_atom_contributions : List (ℤ × ℚ)) (forces : Option Mat)
    (kernel_gradients_sparse : Option Mat) (force_regularizer : Option ℚ) :
    Except String (Mat × Vec) :=
  (fit_design sqrt geoms energies kernel_energies_sparse
      energy_regularizer_peratom energy_atom_contributions forces
      kernel_gradients_sparse force_regularizer).map
    (fun p => (matAdd kernel_sparse (matMul p.1.transpose p.1),
               matVec p.1.transpose p.2))

/-- The configuration of the `rascal.models.Kernel` object built by
`compute_kernels`. -/
structure KernelConfig where
  name : String
  zeta : ℕ
  target_type : String
  kernel_type : String
  deriving DecidableEq, Repr

/-- Source `compute_kernels` (source lines 89–141).  The external kernel evaluator's
three call modes are the parameters `kself` (`kernel(sparse_points)`), `kcross`
(`kernel(soaps, sparse_points)`) and `kgrad`
(`kernel(soaps, sparse_points, grad=(True, False))`); `S` and `P` are the
opaque types of the SOAP vectors and the sparse points.  The `np.save` audit
dumps are I/O side effects, not modelled.  The Python function returns a
4-tuple when `do_gradients` and a 3-tuple otherwise; the embedding returns the
gradient slot as an `Option` that is `some` exactly in the 4-tuple case. -/
def compute_kernels {S P : Type} (kself : P → Mat) (kcross : S → P → Mat)
    (kgrad : S → P → Mat) (soap_power : ℕ) (soaps : S) (sparse_points : P)
    (do_gradients : Bool) (compute_sparse_kernel : Bool) :
    KernelConfig × Mat × Mat × Option Mat :=
  let kernel : KernelConfig :=
    ⟨"GAP", soap_power, "Structure", "Sparse"⟩
  let kernel_sparse := if compute_sparse_kernel then kself sparse_points else []
  let kernel_sparse_full := kcross soaps sparse_points
  if do_gradients then
    (kernel, kernel_sparse, kernel_sparse_full, some (kgrad soaps sparse_points))
  else
    (kernel, kernel_sparse, kernel_sparse_full, none)

/-! ### Heap model for the frame property of `fit_gap_simple`

Python objects live on a heap; `fit_gap_simple` receives references to NumPy
arrays and ASE `Atoms` objects.  Every NumPy operation it performs
(`-`, `-1 *`, `/`, `np.sqrt`, `np.vstack`, `np.concatenate`, `.flatten()`,
`@`, `np.linalg.lstsq`) allocates a fresh array; none operates in place.  The
heap model below reflects this: each intermediate named array of the source is
allocated at a fresh reference, and input references are only read. -/

/-- A heap-allocated Python value: a 1-D array, a 2-D array, or an ASE
`Atoms` object. -/
inductive PyVal where
  | arr1 (v : Vec)
  | arr2 (m : Mat)
  | geomv (g : Geom)
  deriving DecidableEq, Repr

/-- The Python heap: values indexed by references `0, 1, 2, …`. -/
abbrev Heap := List PyVal

/-- Allocate a fresh object, returning the extended heap and its reference. -/
def Heap.alloc (h : Heap) (v : PyVal) : Heap × ℕ := (h ++ [v], h.length)

/-- Read a 1-D array at a reference (dangling or ill-typed reads yield `[]`;
the correspondence theorem only concerns well-typed heaps). -/
def Heap.arr1At (h : Heap) (r : ℕ) : Vec :=
  match h[r]? with
  | some (PyVal.arr1 v) => v
  | _ => []

/-- Read a 2-D array at a reference. -/
def Heap.arr2At (h : Heap) (r : ℕ) : Mat :=
  match h[r]? with
  | some (PyVal.arr2 m) => m
  | _ => []

/-- Read an `Atoms` object at a reference. -/
def Heap.geomAt (h : Heap) (r : ℕ) : Geom :=
  match h[r]? with
  | some (PyVal.geomv g) => g
  | _ => ⟨[]⟩

/-- Heap-level `fit_gap_simple`: the array arguments are references into the
heap, each intermediate named array of the source allocates a fresh cell, and
the returned value is a reference to the freshly allocated weight vector (or
the Python `TypeError` of the partially configured force-fitting case). -/
def fit_gap_simpleH (sqrt : ℚ → ℚ) (lstsq : Option ℚ → Mat → Vec → Vec)
    (h0 : Heap) (geoms : List ℕ) (kernel_sparse : ℕ) (energies : ℕ)
    (kernel_energies_sparse : ℕ) (energy_regularizer_peratom : ℚ)
    (energy_atom_contributions : List (ℤ × ℚ)) (forces : Option ℕ)
    (kernel_gradients_sparse : Option ℕ) (force_regularizer : Option ℚ)
    (rcond : Option ℚ) : Heap × Except String ℕ :=
  let geomVals := geoms.map h0.geomAt
  let e0_all := geomVals.map (fun g => get_energy_baseline g energy_atom_contributions)
  let (h1, _) := h0.alloc (PyVal.arr1 e0_all)
  let energies_shifted := List.zipWith (· - ·) (h0.arr1At energies) e0_all
  let (h2, _) := h1.alloc (PyVal.arr1 energies_shifted)
  let natoms_list := geomVals.map Geom.len
  let (h3, _) := h2.alloc (PyVal.arr1 (natoms_list.map (fun n : ℕ => (n : ℚ))))
  let energy_regularizer :=
    natoms_list.map (fun n : ℕ => energy_regularizer_peratom * sqrt (n : ℚ))
  let (h4, _) := h3.alloc (PyVal.arr1 energy_regularizer)
  let kernel_energies_norm :=
    List.zipWith (fun row r => row.map (fun x => x / r))
      (h0.arr2At kernel_energies_sparse) energy_regularizer
  let (h5, _) := h4.alloc (PyVal.arr2 kernel_energies_norm)
  match forces with
  | some fsRef =>
      let gradients := (h0.arr2At fsRef).map (List.map (fun x => -1 * x))
      let (h6, _) := h5.alloc (PyVal.arr2 gradients)
      match kernel_gradients_sparse, force_regularizer with
      | some kgRef, some fr =>
          let kernel_gradients_norm :=
            (h0.arr2At kgRef).map (List.map (fun x => x / fr))
          let (h7, _) := h6.alloc (PyVal.arr2 kernel_gradients_norm)
          let K_NM := kernel_energies_norm ++ kernel_gradients_norm
          let (h8, _) := h7.alloc (PyVal.arr2 K_NM)
          let Y := List.zipWith (· / ·) energies_shifted energy_regularizer
            ++ gradients.flatten.map (fun x => x / fr)
          let (h9, _) := h8.alloc (PyVal.arr1 Y)
          let K := matAdd (h0.arr2At kernel_sparse) (matMul K_NM.transpose K_NM)
          let (h10, _) := h9.alloc (PyVal.arr2 K)
          let weights := lstsq rcond K (matVec K_NM.transpose Y)
          let (h11, wRef) := h10.alloc (PyVal.arr1 weights)
          (h11, Except.ok wRef)
      | _, _ => (h6, Except.error "TypeError: unsupported operand for /")
  | none =>
      let K_NM := kernel_energies_norm
      let Y := List.zipWith (· / ·) energies_shifted energy_regularizer
      let (h6, _) := h5.alloc (PyVal.arr1 Y)
      let K := matAdd (h0.arr2At kernel_sparse) (matMul K_NM.transpose K_NM)
      let (h7, _) := h6.alloc (PyVal.arr2 K)
      let weights := lstsq rcond K (matVec K_NM.transpose Y)
      let (h8, wRef) := h7.alloc (PyVal.arr1 weights)
      (h8, Except.ok wRef)

/-! ## Helper lemmas -/

lemma foldl_add_map {α : Type} (f : α → ℚ) (l : List α) (init : ℚ) :
    l.foldl (fun a p => a + f p) init = init + (l.map f).sum := by
  induction l generalizing init with
  | nil => simp
  | cons x xs ih => simp [ih, add_assoc]

lemma get_energy_baseline_eq_sum (g : Geom) (t : List (ℤ × ℚ)) :
    get_energy_baseline g t
      = (t.map (fun p => p.2 * (g.atomicNumbers.count p.1 : ℚ))).sum := by
  simpa [get_energy_baseline] using
    foldl_add_map (fun p : ℤ × ℚ => p.2 * (g.atomicNumbers.count p.1 : ℚ)) t 0

lemma sum_map_add {α : Type} (f g : α → ℚ) (l : List α) :
    (l.map (fun x => f x + g x)).sum = (l.map f).sum + (l.map g).sum := by
  induction l with
  | nil => simp
  | cons x xs ih => simp [ih]; ring

lemma sum_ite_of_not_mem (a : ℤ) (t : List (ℤ × ℚ)) (h : a ∉ t.map Prod.fst) :
    (t.map (fun p => if a = p.1 then p.2 else 0)).sum = 0 := by
  induction t with
  | nil => simp
  | cons p ps ih =>
      simp only [List.map_cons, List.mem_cons, not_or] at h
      rw [List.map_cons, List.sum_cons, if_neg h.1, ih h.2, add_zero]

lemma lookup_getD_eq_sum_ite (a : ℤ) (t : List (ℤ × ℚ))
    (hnd : (t.map Prod.fst).Nodup) :
    (t.lookup a).getD 0 = (t.map (fun p => if a = p.1 then p.2 else 0)).sum := by
  induction t with
  | nil => simp
  | cons p ps ih =>
      obtain ⟨k, b⟩ := p
      rw [List.map_cons, List.nodup_cons] at hnd
      by_cases hak : a = k
      · subst hak
        rw [List.lookup_cons]
        simp only [beq_self_eq_true]
        rw [List.map_cons, List.sum_cons, if_pos rfl,
          sum_ite_of_not_mem a ps hnd.1, add_zero]
        rfl
      · rw [List.lookup_cons]
        have hbeq : (a == k) = false := beq_eq_false_iff_ne.mpr hak
        rw [hbeq]
        rw [List.map_cons, List.sum_cons, if_neg hak, zero_add, ih hnd.2]

lemma sum_sum_ite_swap (atoms : List ℤ) (t : List (ℤ × ℚ)) :
    (atoms.map (fun z => (t.map (fun p => if z = p.1 then p.2 else 0)).sum)).sum
      = (t.map (fun p => p.2 * (atoms.count p.1 : ℚ))).sum := by
  induction atoms with
  | nil =>
      simp
  | cons a as ih =>
      rw [List.map_cons, List.sum_cons, ih, ← sum_map_add]
      apply congrArg
      apply List.map_congr_left
      intro p _
      by_cases hpa : p.1 = a
      · rw [if_pos hpa.symm, List.count_cons]
        simp only [hpa, beq_self_eq_true, if_true]
        push_cast
        ring
      · rw [if_neg (fun hc => hpa hc.symm), List.count_cons]
        have hbf : (a == p.1) = false :=
          beq_eq_false_iff_ne.mpr (fun hc => hpa hc.symm)
        simp only [hbf, Bool.false_eq_true, if_false]
        push_cast
        ring

lemma sqResid_nonneg (A : Mat) (b v : Vec) : 0 ≤ sqResid A b v := by
  unfold sqResid sqNorm
  apply List.sum_nonneg
  intro x hx
  obtain ⟨y, _, rfl⟩ := List.mem_map.mp hx
  exact mul_self_nonneg y

lemma isLeastSqSol_of_resid_zero (A : Mat) (b w : Vec)
    (h : sqResid A b w = 0) : IsLeastSqSol A b w := by
  intro v
  rw [h]
  exact sqResid_nonneg A b v

lemma ls_unique_one_dim (a b : ℚ) (ha : a ≠ 0) (w : Vec)
    (h : IsLeastSqSol [[a]] [b] w) (hw : w.length = 1) : w = [b / a] := by
  match w, hw with
  | [x], _ =>
    have hres : sqResid [[a]] [b] [x] ≤ sqResid [[a]] [b] [b / a] := h [b / a]
    have hzero : sqResid [[a]] [b] [b / a] = 0 := by
      simp [sqResid, sqNorm, vecSub, matVec, dot, ha]
      field_simp
    rw [hzero] at hres
    have hge : 0 ≤ sqResid [[a]] [b] [x] := sqResid_nonneg _ _ _
    have heq : sqResid [[a]] [b] [x] = 0 := le_antisymm hres hge
    have hform : sqResid [[a]] [b] [x] = (a * x - b) * (a * x - b) := by
      simp [sqResid, sqNorm, vecSub, matVec, dot]
    rw [hform] at heq
    have : a * x - b = 0 := by
      have := mul_self_eq_zero.mp heq
      exact this
    have hx : x = b / a := by
      field_simp
      linarith
    rw [hx]

/-! ## Claim theorems -/

/-- C4: for every structure and baseline table (with the distinct keys of a
Python dict), `_get_energy_baseline` returns the sum over all atoms of the
table's per-species value for that atom's species, absent species contributing
zero (the lookup defaults to 0, never an error). -/
theorem get_energy_baseline_per_atom_sum (geom : Geom) (t : List (ℤ × ℚ))
    (hnd : (t.map Prod.fst).Nodup) :
    get_energy_baseline geom t
      = (geom.atomicNumbers.map (fun z => (t.lookup z).getD 0)).sum := by
  rw [get_energy_baseline_eq_sum, ← sum_sum_ite_swap]
  apply congrArg
  apply List.map_congr_left
  intro z _
  exact (lookup_getD_eq_sum_ite z t hnd).symm

/-- C4 witness: a concrete structure with an atom of species 8 absent from the
table `[(1, 5)]`; the absent species contributes zero. -/
theorem get_energy_baseline_per_atom_sum_witness :
    ((([(1, 5)] : List (ℤ × ℚ)).map Prod.fst).Nodup ∧
      get_energy_baseline ⟨[1, 8, 1]⟩ [(1, 5)]
        = (([1, 8, 1] : List ℤ).map
            (fun z => (([(1, 5)] : List (ℤ × ℚ)).lookup z).getD 0)).sum) ∧
    get_energy_baseline ⟨[1, 8, 1]⟩ [(1, 5)] = 10 :=
  ⟨⟨by decide, get_energy_baseline_per_atom_sum ⟨[1, 8, 1]⟩ [(1, 5)] (by decide)⟩,
    by norm_num [get_energy_baseline_eq_sum]⟩

/-- C7: the energy baseline is linear in composition: an all-zero table yields
baseline 0, and for a single-species structure with per-atom value `b` the
baseline is `b` times the atom count, so doubling the atom count doubles it. -/
theorem get_energy_baseline_linear :
    (∀ (geom : Geom) (t : List (ℤ × ℚ)), (∀ p ∈ t, p.2 = 0) →
      get_energy_baseline geom t = 0) ∧
    (∀ (n : ℕ) (s : ℤ) (b : ℚ),
      get_energy_baseline ⟨List.replicate n s⟩ [(s, b)] = b * n ∧
      get_energy_baseline ⟨List.replicate (2 * n) s⟩ [(s, b)]
        = 2 * get_energy_baseline ⟨List.replicate n s⟩ [(s, b)]) := by
  constructor
  · intro geom t h
    rw [get_energy_baseline_eq_sum]
    apply List.sum_eq_zero
    intro x hx
    obtain ⟨p, hp, rfl⟩ := List.mem_map.mp hx
    rw [h p hp, zero_mul]
  · intro n s b
    have hbase : ∀ m : ℕ,
        get_energy_baseline ⟨List.replicate m s⟩ [(s, b)] = b * m := by
      intro m
      rw [get_energy_baseline_eq_sum]
      simp [List.count_replicate_self]
    refine ⟨hbase n, ?_⟩
    rw [hbase (2 * n), hbase n]
    push_cast
    ring

/-- C7 witness: the all-zero table `[(1, 0), (8, 0)]` on a concrete water-like
structure yields baseline 0, and a 3-atom single-species structure has
baseline `b * 3 = 21` for `b = 7`. -/
theorem get_energy_baseline_linear_witness :
    get_energy_baseline ⟨[8, 1, 1]⟩ [(1, 0), (8, 0)] = 0 ∧
    get_energy_baseline ⟨List.replicate 3 (6 : ℤ)⟩ [(6, 7)] = 7 * (3 : ℕ) :=
  ⟨get_energy_baseline_linear.1 ⟨[8, 1, 1]⟩ [(1, 0), (8, 0)] (by decide),
    (get_energy_baseline_linear.2 3 6 7).1⟩

/-- C10: `_get_energy_baseline` depends only on per-species atom counts: two
structures whose atomic-number sequences are permutations of each other get
the same baseline, for every table. -/
theorem get_energy_baseline_perm_invariant (l₁ l₂ : List ℤ)
    (t : List (ℤ × ℚ)) (hp : l₁.Perm l₂) :
    get_energy_baseline ⟨l₁⟩ t = get_energy_baseline ⟨l₂⟩ t := by
  rw [get_energy_baseline_eq_sum, get_energy_baseline_eq_sum]
  apply congrArg
  apply List.map_congr_left
  intro p _
  rw [hp.count_eq]

/-- C10 witness: the permuted sequences `[1, 8, 1]` and `[8, 1, 1]` receive
the same baseline under a concrete table. -/
theorem get_energy_baseline_perm_invariant_witness :
    ([1, 8, 1] : List ℤ).Perm [8, 1, 1] ∧
    get_energy_baseline ⟨[1, 8, 1]⟩ [(1, 2), (8, 5)]
      = get_energy_baseline ⟨[8, 1, 1]⟩ [(1, 2), (8, 5)] :=
  ⟨by decide,
    get_energy_baseline_perm_invariant [1, 8, 1] [8, 1, 1] [(1, 2), (8, 5)]
      (by decide)⟩

/-- C6: with `forces = None`, `fit_gap_simple` never reads
`kernel_gradients_sparse` or `force_regularizer`: two calls differing only in
those arguments return identical results, and neither call rejects them. -/
theorem fit_gap_simple_ignores_force_args (sqrt : ℚ → ℚ)
    (lstsq : Option ℚ → Mat → Vec → Vec) (geoms : List Geom)
    (kernel_sparse : Mat) (energies : Vec) (kernel_energies_sparse : Mat)
    (reg : ℚ) (contribs : List (ℤ × ℚ)) (kg₁ kg₂ : Option Mat)
    (fr₁ fr₂ : Option ℚ) (rcond : Option ℚ) :
    fit_gap_simple sqrt lstsq geoms kernel_sparse energies
        kernel_energies_sparse reg contribs none kg₁ fr₁ rcond
      = fit_gap_simple sqrt lstsq geoms kernel_sparse energies
          kernel_energies_sparse reg contribs none kg₂ fr₂ rcond ∧
    (fit_gap_simple sqrt lstsq geoms kernel_sparse energies
        kernel_energies_sparse reg contribs none kg₁ fr₁ rcond).isOk = true :=
  ⟨rfl, rfl⟩

/-- C5: supplying `forces` while omitting `kernel_gradients_sparse` or
`force_regularizer` raises (the Python `TypeError` from dividing by `None`);
no weight vector is returned. -/
theorem fit_gap_simple_partial_force_config_errors (sqrt : ℚ → ℚ)
    (lstsq : Option ℚ → Mat → Vec → Vec) (geoms : List Geom)
    (kernel_sparse : Mat) (energies : Vec) (kernel_energies_sparse : Mat)
    (reg : ℚ) (contribs : List (ℤ × ℚ)) (fs : Mat) (kg : Option Mat)
    (fr : Option ℚ) (rcond : Option ℚ) (h : kg = none ∨ fr = none) :
    fit_gap_simple sqrt lstsq geoms kernel_sparse energies
        kernel_energies_sparse reg contribs (some fs) kg fr rcond
      = Except.error "TypeError: unsupported operand for /" := by
  rcases h with h | h
  · subst h
    cases fr <;> rfl
  · subst h
    cases kg <;> rfl

/-- C5 witness: a concrete call with forces supplied but no gradient kernel
errors out. -/
theorem fit_gap_simple_partial_force_config_errors_witness :
    ((none : Option Mat) = none ∨ (some (1 : ℚ)) = none) ∧
    fit_gap_simple (fun x => x) (fun _ _ _ => []) [⟨[1]⟩] [[1]] [3] [[1]]
        1 [] (some [[0, 0, 0]]) none (some 1) none
      = Except.error "TypeError: unsupported operand for /" :=
  ⟨Or.inl rfl,
    fit_gap_simple_partial_force_config_errors (fun x => x) (fun _ _ _ => [])
      [⟨[1]⟩] [[1]] [3] [[1]] 1 [] [[0, 0, 0]] none (some 1) none
      (Or.inl rfl)⟩

/-- C8: with `compute_sparse_kernel = False`, `compute_kernels` substitutes an
empty array for the sparse-sparse kernel and never invokes the evaluator's
self-kernel mode (the result does not depend on it); the gradient kernel slot
is filled exactly when `do_gradients` is true. -/
theorem compute_kernels_optional_blocks {S P : Type} (kself kself' : P → Mat)
    (kcross kgrad : S → P → Mat) (soap_power : ℕ) (soaps : S)
    (sparse_points : P) (dg csk : Bool) :
    ((compute_kernels kself kcross kgrad soap_power soaps sparse_points
        dg false).2.1 = [] ∧
      compute_kernels kself kcross kgrad soap_power soaps sparse_points dg false
        = compute_kernels kself' kcross kgrad soap_power soaps sparse_points
            dg false) ∧
    (compute_kernels kself kcross kgrad soap_power soaps sparse_points
        dg csk).2.2.2
      = (if dg = true then some (kgrad soaps sparse_points) else none) := by
  cases dg <;> cases csk <;> exact ⟨⟨rfl, rfl⟩, rfl⟩

/-- C2: whenever the force-fitting configuration is consistent (no forces, or
forces with both gradient kernel and force regularizer), `fit_gap_simple`
returns — without raising, regardless of any rank deficiency of `K` — exactly
the least-squares solver's output on the system with matrix
`K = K_MM + K_NM^T K_NM` and right-hand side `K_NM^T Y`, with the `rcond`
cutoff passed through; if that output is the minimum-norm least-squares
solution of this system (the contract of `np.linalg.lstsq`), then so is the
returned weight vector. -/
theorem fit_gap_simple_solves_normal_equations (sqrt : ℚ → ℚ)
    (lstsq : Option ℚ → Mat → Vec → Vec) (geoms : List Geom)
    (kernel_sparse : Mat) (energies : Vec) (kernel_energies_sparse : Mat)
    (reg : ℚ) (contribs : List (ℤ × ℚ)) (forces : Option Mat)
    (kg : Option Mat) (fr : Option ℚ) (rcond : Option ℚ)
    (hconf : forces = none ∨ (∃ gk frv, kg = some gk ∧ fr = some frv)) :
    ∃ K rhs,
      fit_normal_system sqrt geoms kernel_sparse energies
          kernel_energies_sparse reg contribs forces kg fr
        = Except.ok (K, rhs) ∧
      fit_gap_simple sqrt lstsq geoms kernel_sparse energies
          kernel_energies_sparse reg contribs forces kg fr rcond
        = Except.ok (lstsq rcond K rhs) ∧
      (IsMinNormLeastSqSol K rhs (lstsq rcond K rhs) →
        ∃ w, fit_gap_simple sqrt lstsq geoms kernel_sparse energies
            kernel_energies_sparse reg contribs forces kg fr rcond
          = Except.ok w ∧ IsMinNormLeastSqSol K rhs w) := by
  rcases hconf with rfl | ⟨gk, frv, rfl, rfl⟩
  · exact ⟨_, _, rfl, rfl, fun hmin => ⟨_, rfl, hmin⟩⟩
  · cases forces with
    | none => exact ⟨_, _, rfl, rfl, fun hmin => ⟨_, rfl, hmin⟩⟩
    | some fs => exact ⟨_, _, rfl, rfl, fun hmin => ⟨_, rfl, hmin⟩⟩

/-- C2 witness: on the concrete energy-only problem the assembled system is
`K = [[6]]`, `rhs = [13]`, and the solver's output is returned as-is. -/
theorem fit_gap_simple_solves_normal_equations_witness :
    fit_normal_system (fun _ => 1) [⟨[1]⟩, ⟨[1]⟩] [[1]] [3, 5] [[1], [2]] 1
        [(1, 0)] none none none = Except.ok ([[6]], [13]) ∧
    fit_gap_simple (fun _ => 1) (fun _ _ _ => [13 / 6]) [⟨[1]⟩, ⟨[1]⟩] [[1]]
        [3, 5] [[1], [2]] 1 [(1, 0)] none none none none
      = Except.ok [13 / 6] := by
  obtain ⟨K, rhs, h1, h2, _⟩ :=
    fit_gap_simple_solves_normal_equations (fun _ => 1) (fun _ _ _ => [13 / 6])
      [⟨[1]⟩, ⟨[1]⟩] [[1]] [3, 5] [[1], [2]] 1 [(1, 0)] none none none none
      (Or.inl rfl)
  have ht : List.transpose [[(1 : ℚ)], [2]] = [[1, 2]] := rfl
  have hval : fit_normal_system (fun _ => (1 : ℚ)) [⟨[1]⟩, ⟨[1]⟩] [[1]] [3, 5]
      [[1], [2]] 1 [(1, 0)] none none none = Except.ok ([[6]], [13]) := by
    norm_num [fit_normal_system, fit_design, get_energy_baseline, Geom.len,
      matAdd, matMul, matVec, dot, Except.map, ht]
  exact ⟨hval, h2⟩

/-- C3: on the concrete two-structure, one-sparse-point problem
(`K_MM = [[1]]`, `K_NM_energy = [[1],[2]]`, `energies = [3,5]`, zero baseline,
one atom per structure, unit energy regularizer, no forces), `fit_gap_simple`
returns the closed-form solution `w = 13/6` of `(1 + 1·1 + 2·2) w = 1·3 + 2·5`,
exactly over `ℚ` (hence within any float tolerance), for any least-squares
solver that returns a genuine size-1 least-squares solution there. -/
theorem fit_gap_simple_end_to_end (sqrt : ℚ → ℚ)
    (lstsq : Option ℚ → Mat → Vec → Vec) (rcond : Option ℚ)
    (hsqrt : sqrt 1 = 1)
    (hls : IsLeastSqSol [[6]] [13] (lstsq rcond [[6]] [13]))
    (hlen : (lstsq rcond [[6]] [13]).length = 1) :
    fit_gap_simple sqrt lstsq [⟨[1]⟩, ⟨[1]⟩] [[1]] [3, 5] [[1], [2]] 1
        [(1, 0)] none none none rcond = Except.ok [13 / 6] := by
  have huniq : lstsq rcond [[6]] [13] = [13 / 6] :=
    ls_unique_one_dim 6 13 (by norm_num) _ hls hlen
  have ht : List.transpose [[(1 : ℚ)], [2]] = [[1, 2]] := rfl
  have hfit : fit_gap_simple sqrt lstsq [⟨[1]⟩, ⟨[1]⟩] [[1]] [3, 5] [[1], [2]]
      1 [(1, 0)] none none none rcond
      = Except.ok (lstsq rcond [[6]] [13]) := by
    norm_num [fit_gap_simple, fit_design, get_energy_baseline, Geom.len,
      matAdd, matMul, matVec, dot, hsqrt, ht]
  rw [hfit, huniq]

/-- C3 witness: with `sqrt` and the solver instantiated concretely (the solver
returning the true least-squares solution `[13/6]`), the call returns
`[13/6]`. -/
theorem fit_gap_simple_end_to_end_witness :
    ((fun _ : ℚ => (1 : ℚ)) 1 = 1 ∧
      IsLeastSqSol [[6]] [13] [13 / 6] ∧ ([13 / 6] : Vec).length = 1) ∧
    fit_gap_simple (fun _ => 1) (fun _ _ _ => [13 / 6]) [⟨[1]⟩, ⟨[1]⟩] [[1]]
        [3, 5] [[1], [2]] 1 [(1, 0)] none none none none
      = Except.ok [13 / 6] := by
  have hls : IsLeastSqSol [[6]] [13] [13 / 6] :=
    isLeastSqSol_of_resid_zero _ _ _
      (by norm_num [sqResid, sqNorm, vecSub, matVec, dot])
  exact ⟨⟨rfl, hls, rfl⟩,
    fit_gap_simple_end_to_end (fun _ => 1) (fun _ _ _ => [13 / 6]) none rfl
      hls rfl⟩

/-- C1: the assembled design matrix and target vector.  With no forces, `K_NM`
and `Y` consist of the energy block alone: row `i` is
`K_NM_energy[i,:] / (energy_regularizer_peratom * sqrt(atom_count[i]))` with
target `(energies[i] - baseline(structures[i]))` scaled the same way.  With
forces supplied (and the gradient kernel and force regularizer present), a
gradient block `K_NM_grad / force_reg` with flattened targets
`(-forces).flatten() / force_reg` is appended below the energy block. -/
theorem fit_design_assembles_design_matrix (sqrt : ℚ → ℚ) (geoms : List Geom)
    (energies : Vec) (kE : Mat) (reg : ℚ) (contribs : List (ℤ × ℚ))
    (kg : Option Mat) (fr : Option ℚ)
    (hE : energies.length = geoms.length)
    (hK : kE.length = geoms.length) :
    (∃ KNM Y,
      fit_design sqrt geoms energies kE reg contribs none kg fr
        = Except.ok (KNM, Y) ∧
      KNM.length = geoms.length ∧ Y.length = geoms.length ∧
      (∀ i (hi : i < geoms.length),
        KNM[i]? = some ((kE.get ⟨i, by omega⟩).map
          (fun x => x / (reg * sqrt ((geoms.get ⟨i, hi⟩).len : ℚ)))) ∧
        Y[i]? = some ((energies.get ⟨i, by omega⟩
            - get_energy_baseline (geoms.get ⟨i, hi⟩) contribs)
          / (reg * sqrt ((geoms.get ⟨i, hi⟩).len : ℚ))))) ∧
    (∀ fs gkm frv, ∃ E G YE YG,
      fit_design sqrt geoms energies kE reg contribs (some fs) (some gkm)
          (some frv)
        = Except.ok (E ++ G, YE ++ YG) ∧
      E.length = geoms.length ∧ YE.length = geoms.length ∧
      (∀ i (hi : i < geoms.length),
        E[i]? = some ((kE.get ⟨i, by omega⟩).map
          (fun x => x / (reg * sqrt ((geoms.get ⟨i, hi⟩).len : ℚ)))) ∧
        YE[i]? = some ((energies.get ⟨i, by omega⟩
            - get_energy_baseline (geoms.get ⟨i, hi⟩) contribs)
          / (reg * sqrt ((geoms.get ⟨i, hi⟩).len : ℚ)))) ∧
      G = gkm.map (List.map (fun x => x / frv)) ∧
      YG = fs.flatten.map (fun x => -x / frv)) := by
  have hrowsK : ∀ i (hi : i < geoms.length),
      (List.zipWith (fun row r => row.map (fun x => x / r)) kE
        ((geoms.map Geom.len).map
          (fun n : ℕ => reg * sqrt (n : ℚ))))[i]?
        = some ((kE.get ⟨i, by omega⟩).map
          (fun x => x / (reg * sqrt ((geoms.get ⟨i, hi⟩).len : ℚ)))) := by
    intro i hi
    have hlen : i < (List.zipWith (fun row r => row.map (fun x => x / r)) kE
        ((geoms.map Geom.len).map (fun n : ℕ => reg * sqrt (n : ℚ)))).length := by
      simp only [List.length_zipWith, List.length_map]
      omega
    rw [List.getElem?_eq_getElem hlen]
    simp [List.getElem_zipWith, List.get_eq_getElem]
  have hrowsY : ∀ i (hi : i < geoms.length),
      (List.zipWith (· / ·)
        (List.zipWith (· - ·) energies
          (geoms.map (fun g => get_energy_baseline g contribs)))
        ((geoms.map Geom.len).map (fun n : ℕ => reg * sqrt (n : ℚ))))[i]?
        = some ((energies.get ⟨i, by omega⟩
            - get_energy_baseline (geoms.get ⟨i, hi⟩) contribs)
          / (reg * sqrt ((geoms.get ⟨i, hi⟩).len : ℚ))) := by
    intro i hi
    have hlen : i < (List.zipWith (· / ·)
        (List.zipWith (· - ·) energies
          (geoms.map (fun g => get_energy_baseline g contribs)))
        ((geoms.map Geom.len).map (fun n : ℕ => reg * sqrt (n : ℚ)))).length := by
      simp only [List.length_zipWith, List.length_map]
      omega
    rw [List.getElem?_eq_getElem hlen]
    simp [List.getElem_zipWith, List.get_eq_getElem]
  constructor
  · refine ⟨_, _, rfl, ?_, ?_, ?_⟩
    · simp only [List.length_zipWith, List.length_map]
      omega
    · simp only [List.length_zipWith, List.length_map]
      omega
    · intro i hi
      exact ⟨hrowsK i hi, hrowsY i hi⟩
  · intro fs gkm frv
    refine ⟨_, _, _, _, rfl, ?_, ?_, ?_, rfl, ?_⟩
    · simp only [List.length_zipWith, List.length_map]
      omega
    · simp only [List.length_zipWith, List.length_map]
      omega
    · intro i hi
      exact ⟨hrowsK i hi, hrowsY i hi⟩
    · rw [← List.map_flatten, List.map_map]
      apply List.map_congr_left
      intro x _
      simp [neg_one_mul]

/-- C1 witness: a one-structure force-fitting call; the energy row is
`[1, 2] / (1 * sqrt 1)` with target `(3 - 0) / (1 * sqrt 1)`, and the gradient
block and targets are the gradient kernel and negated flattened forces divided
by the force regularizer 2. -/
theorem fit_design_assembles_design_matrix_witness :
    (([3] : Vec).length = ([⟨[1]⟩] : List Geom).length ∧
      ([[1, 2]] : Mat).length = ([⟨[1]⟩] : List Geom).length) ∧
    (∃ KNM Y, fit_design (fun _ => 1) [⟨[1]⟩] [3] [[1, 2]] 1 [] none none none
        = Except.ok (KNM, Y) ∧ KNM[0]? = some [1, 2] ∧ Y[0]? = some 3) ∧
    (∃ E G YE YG, fit_design (fun _ => 1) [⟨[1]⟩] [3] [[1, 2]] 1 []
        (some [[4, 6, 8]]) (some [[2], [2], [2]]) (some 2)
        = Except.ok (E ++ G, YE ++ YG) ∧
      G = [[1], [1], [1]] ∧ YG = [-2, -3, -4]) := by
  obtain ⟨⟨KNM, Y, hok, _, _, hrow⟩, hforce⟩ :=
    fit_design_assembles_design_matrix (fun _ => 1) [⟨[1]⟩] [3] [[1, 2]] 1 []
      none none rfl rfl
  obtain ⟨E, G, YE, YG, hok2, _, _, _, hG, hYG⟩ :=
    hforce [[4, 6, 8]] [[2], [2], [2]] 2
  obtain ⟨h1, h2⟩ := hrow 0 (by norm_num)
  refine ⟨⟨rfl, rfl⟩, ⟨KNM, Y, hok, ?_, ?_⟩, ⟨E, G, YE, YG, hok2, ?_, ?_⟩⟩
  · rw [h1]
    norm_num [Geom.len]
  · rw [h2]
    norm_num [Geom.len, get_energy_baseline]
  · rw [hG]
    norm_num
  · rw [hYG]
    norm_num

/-- C9: `fit_gap_simple` never mutates its inputs.  On the heap model, the
call only extends the heap with freshly allocated intermediates: every
reference that existed before the call (the input arrays and the structures
among them) still holds exactly its old value afterwards, whether the call
returns a weight reference or raises; and when it returns, the returned
reference holds the weight vector of the pure `fit_gap_simple` applied to the
values the inputs held at call time. -/
theorem fit_gap_simpleH_frame (sqrt : ℚ → ℚ)
    (lstsq : Option ℚ → Mat → Vec → Vec) (h0 : Heap) (geoms : List ℕ)
    (ks eN kE : ℕ) (reg : ℚ) (contribs : List (ℤ × ℚ))
    (forces kg : Option ℕ) (fr : Option ℚ) (rcond : Option ℚ) :
    (∃ ext, (fit_gap_simpleH sqrt lstsq h0 geoms ks eN kE reg contribs
        forces kg fr rcond).1 = h0 ++ ext) ∧
    (∀ i, i < h0.length →
      ((fit_gap_simpleH sqrt lstsq h0 geoms ks eN kE reg contribs
          forces kg fr rcond).1)[i]? = h0[i]?) ∧
    (∀ r, (fit_gap_simpleH sqrt lstsq h0 geoms ks eN kE reg contribs
        forces kg fr rcond).2 = Except.ok r →
      ∃ w, fit_gap_simple sqrt lstsq (geoms.map h0.geomAt) (h0.arr2At ks)
          (h0.arr1At eN) (h0.arr2At kE) reg contribs
          (forces.map h0.arr2At) (kg.map h0.arr2At) fr rcond
        = Except.ok w ∧
      ((fit_gap_simpleH sqrt lstsq h0 geoms ks eN kE reg contribs
          forces kg fr rcond).1)[r]? = some (PyVal.arr1 w)) := by
  rcases forces with _ | fsRef
  · refine ⟨?_, ?_, ?_⟩
    · simp only [fit_gap_simpleH, Heap.alloc, List.append_assoc]
      exact ⟨_, rfl⟩
    · intro i hi
      simp only [fit_gap_simpleH, Heap.alloc, List.append_assoc]
      rw [List.getElem?_append_left (by simpa using hi)]
    · intro r hr
      refine ⟨_, rfl, ?_⟩
      simp only [fit_gap_simpleH, Heap.alloc] at hr ⊢
      rw [← Except.ok.inj hr]
      exact List.getElem?_concat_length _ _
  · rcases kg with _ | kgRef
    · refine ⟨?_, ?_, ?_⟩
      · cases fr <;>
          (simp only [fit_gap_simpleH, Heap.alloc, List.append_assoc]
           exact ⟨_, rfl⟩)
      · intro i hi
        cases fr <;>
          (simp only [fit_gap_simpleH, Heap.alloc, List.append_assoc]
           rw [List.getElem?_append_left (by simpa using hi)])
      · intro r hr
        cases fr <;> simp [fit_gap_simpleH, Heap.alloc] at hr
    · rcases fr with _ | frv
      · refine ⟨?_, ?_, ?_⟩
        · simp only [fit_gap_simpleH, Heap.alloc, List.append_assoc]
          exact ⟨_, rfl⟩
        · intro i hi
          simp only [fit_gap_simpleH, Heap.alloc, List.append_assoc]
          rw [List.getElem?_append_left (by simpa using hi)]
        · intro r hr
          simp [fit_gap_simpleH, Heap.alloc] at hr
      · refine ⟨?_, ?_, ?_⟩
        · simp only [fit_gap_simpleH, Heap.alloc, List.append_assoc]
          exact ⟨_, rfl⟩
        · intro i hi
          simp only [fit_gap_simpleH, Heap.alloc, List.append_assoc]
          rw [List.getElem?_append_left (by simpa using hi)]
        · intro r hr
          refine ⟨_, rfl, ?_⟩
          simp only [fit_gap_simpleH, Heap.alloc] at hr ⊢
          rw [← Except.ok.inj hr]
          exact List.getElem?_concat_length _ _

/-- C9 witness: a concrete two-cell heap (an energy array and a structure);
after the call both input cells are unchanged and the result reference holds
the pure fit's weights. -/
theorem fit_gap_simpleH_frame_witness :
    (0 : ℕ) < ([PyVal.arr1 [3], PyVal.geomv ⟨[1]⟩] : Heap).length ∧
    ((fit_gap_simpleH (fun _ => 1) (fun _ _ _ => [3]) [PyVal.arr1 [3], PyVal.geomv ⟨[1]⟩]
        [1] 0 0 0 1 [] none none none none).1)[0]?
      = ([PyVal.arr1 [3], PyVal.geomv ⟨[1]⟩] : Heap)[0]? := by
  refine ⟨by norm_num, ?_⟩
  obtain ⟨_, hpres, _⟩ :=
    fit_gap_simpleH_frame (fun _ => 1) (fun _ _ _ => [3])
      [PyVal.arr1 [3], PyVal.geomv ⟨[1]⟩] [1] 0 0 0 1 [] none none none none
  exact hpres 0 (by norm_num)

end Gaptools
